import Mathlib

/-!
Verification development for the school-monitoring proctoring relay
(`backend/main.py` and `backend/hackathon_features.py`).

Modelling conventions:
* `datetime` instants are rationals (seconds); `timedelta` arithmetic is
  rational subtraction.  Python floats are modelled as rationals.
* The standard-library parsers `datetime.fromisoformat` and
  `datetime.strptime` are fallible external calls; they are modelled as
  abstract `String → Option ℚ` parameters (a `ValueError` is `none`).
* Python dictionaries (`active_students`, `last_frames`, the `defaultdict`
  grouping in `_compute_student_risks`, the timeline `buckets`) are modelled
  as association lists with insertion-ordered keys; `defaultdict` grouping is
  modelled as per-key aggregation over the first-occurrence key order, which
  is the iteration order of a Python dict.
* A WebSocket send is modelled by a `Teacher` record carrying an `ok` flag:
  `ok = true` means `send_json` succeeds, `ok = false` means it raises.
* `list.sort(key=..., reverse=True)` (a stable sort) is modelled with
  `List.insertionSort` over the corresponding descending total preorder.
-/

namespace SchoolMonitoring

/-! ### Timestamp normalisation (`_parse_timestamp`) -/

/-- Embedding of `_parse_timestamp`: `isoP` models `datetime.fromisoformat`,
`f1P` models `strptime` with format `%Y-%m-%d %H:%M:%S`, `f2P` models
`strptime` with format `%d.%m.%Y %H:%M:%S`, and `nowDT` is `datetime.now()`.
Python's `if not raw_value` is true for both `None` and `""`. -/
def parseTimestamp (isoP f1P f2P : String → Option ℚ) (nowDT : ℚ)
    (raw : Option String) : ℚ :=
  match raw with
  | none => nowDT
  | some s =>
    if s = "" then nowDT
    else
      match isoP s with
      | some d => d
      | none =>
        match f1P s with
        | some d => d
        | none =>
          match f2P s with
          | some d => d
          | none => nowDT

/-! ### Severity weights and risk levels -/

/-- Embedding of the `SEVERITY_WEIGHTS` dict lookup (`dict.get`). -/
def severityWeights (t : String) : Option ℚ :=
  if t = "tab_switch" then some 2
  else if t = "face_not_found" then some (5/2)
  else if t = "multiple_faces" then some 4
  else if t = "phone_detected" then some 5
  else if t = "suspicious_window" then some 3
  else none

/-- Lookup `SEVERITY_WEIGHTS.get(violation_type, 1.5)`. -/
def baseWeight (t : String) : ℚ :=
  (severityWeights t).getD (3/2)

/-- Age `max((now - ts).total_seconds() / 60, 0.0)`. -/
def ageMinutes (now ts : ℚ) : ℚ :=
  max ((now - ts) / 60) 0

/-- Decay `1.0 / (1.0 + (age_minutes / 20.0))`. -/
def recencyFactor (a : ℚ) : ℚ :=
  1 / (1 + a / 20)

/-- Embedding of `_risk_level`. -/
def riskLevel (score : ℚ) : String :=
  if score ≥ 30 then "critical"
  else if score ≥ 15 then "high"
  else if score ≥ 7 then "medium"
  else "low"

/-- Python `round(x, 2)`, modelled as rounding to the nearest multiple of
`1/100` on rationals. -/
def round2 (q : ℚ) : ℚ :=
  (round (q * 100) : ℚ) / 100

/-! ### Violation records and per-student aggregation -/

/-- A raw violation dict as consumed by `_compute_student_risks`; `none`
models a missing key (`dict.get` default applies). -/
structure Violation where
  student_id : Option String
  violation_type : Option String
  timestamp : Option String
deriving DecidableEq

/-- Defaulted id `violation.get("student_id", "unknown")`. -/
def effStudentId (v : Violation) : String :=
  v.student_id.getD "unknown"

/-- Defaulted type `violation.get("violation_type", "unknown")`. -/
def effType (v : Violation) : String :=
  v.violation_type.getD "unknown"

/-- One record's contribution `base_weight * recency_factor` to its student's
risk score; `parse` is `_parse_timestamp` with its fallible sub-parsers and
`now` already fixed. -/
def violTerm (parse : Option String → ℚ) (now : ℚ) (v : Violation) : ℚ :=
  baseWeight (effType v) * recencyFactor (ageMinutes now (parse v.timestamp))

/-- Accumulated `risk_score` (before rounding) of a list of records. -/
def rawScore (parse : Option String → ℚ) (now : ℚ) (rs : List Violation) : ℚ :=
  (rs.map (violTerm parse now)).sum

/-- The `last_incident_at` fold: starts at `None`, replaced whenever a record
has a strictly larger timestamp. -/
def lastIncidentAt (parse : Option String → ℚ) (rs : List Violation) : Option ℚ :=
  rs.foldl
    (fun acc v =>
      match acc with
      | none => some (parse v.timestamp)
      | some m => if parse v.timestamp > m then some (parse v.timestamp) else some m)
    none

/-- First-occurrence deduplication, the key iteration order of a Python
dict built by insertion. -/
def firstDedupAux [DecidableEq α] (seen : List α) : List α → List α
  | [] => []
  | x :: xs =>
    if x ∈ seen then firstDedupAux seen xs
    else x :: firstDedupAux (x :: seen) xs

/-- Keys of a Python dict built by inserting the elements of `l` in order. -/
def firstDedup [DecidableEq α] (l : List α) : List α :=
  firstDedupAux [] l

/-- Python `max(l, key=lambda p: p[1])` with `default=None`: returns the
first pair of maximal second component, or `none` on the empty list. -/
def argmaxFirst {α : Type} : List (α × ℕ) → Option (α × ℕ)
  | [] => none
  | p :: rest =>
    match argmaxFirst rest with
    | none => some p
    | some q => if q.2 > p.2 then some q else some p

/-- Expression `Counter(types).most_common(1)[0][0] if types else "unknown"`: the most
frequent violation type, ties broken by first occurrence. -/
def topViolationType (rs : List Violation) : String :=
  let ts := rs.map effType
  match argmaxFirst ((firstDedup ts).map (fun t => (t, ts.countP (· == t)))) with
  | some p => p.1
  | none => "unknown"

/-- The summary row `_compute_student_risks` emits for one student. -/
structure StudentSummary where
  student_id : String
  incidents : ℕ
  risk_score : ℚ
  risk_level : String
  last_incident_at : Option ℚ
  top_violation_type : String
deriving DecidableEq

/-- The entry of `by_student[sid]`, rendered as a summary row: the
`defaultdict` accumulates exactly over the records whose (defaulted)
student id equals `sid`. -/
def summarize (parse : Option String → ℚ) (now : ℚ)
    (records : List Violation) (sid : String) : StudentSummary :=
  let rs := records.filter (fun r => effStudentId r == sid)
  let score := round2 (rawScore parse now rs)
  { student_id := sid
    incidents := rs.length
    risk_score := score
    risk_level := riskLevel score
    last_incident_at := lastIncidentAt parse rs
    top_violation_type := topViolationType rs }

/-- The descending sort order of `result.sort(key=lambda x:
(x["risk_score"], x["incidents"]), reverse=True)`: `summGE a b` holds when
the key tuple of `a` is lexicographically at least that of `b`. -/
def summGE (a b : StudentSummary) : Prop :=
  b.risk_score < a.risk_score ∨
    (b.risk_score = a.risk_score ∧ b.incidents ≤ a.incidents)

instance instDecsummGE : DecidableRel summGE := fun a b => by
  unfold summGE; infer_instance

/-- Embedding of `_compute_student_risks`: group by (defaulted) student id in
first-occurrence order, summarise each group, then stable-sort descending by
`(risk_score, incidents)`. -/
def computeStudentRisks (parse : Option String → ℚ) (now : ℚ)
    (records : List Violation) : List StudentSummary :=
  List.insertionSort summGE
    ((firstDedup (records.map effStudentId)).map (summarize parse now records))

/-- The `/leaderboard` endpoint body: `risks[:limit]`. -/
def leaderboard (parse : Option String → ℚ) (now : ℚ)
    (records : List Violation) (limit : ℕ) : List StudentSummary :=
  (computeStudentRisks parse now records).take limit

/-! ### Timeline (`/timeline` endpoint) -/

/-- Key `ts.strftime("%Y-%m-%d %H:%M")`: truncation of an instant to its minute,
modelled as the integer minute index. -/
def minuteKey (ts : ℚ) : ℤ :=
  ⌊ts / 60⌋

/-- The in-window test: the code skips a record iff `ts < from_ts` where
`from_ts = now - timedelta(minutes=minutes)`. -/
def inWindow (parse : Option String → ℚ) (now : ℚ) (minutes : ℕ)
    (v : Violation) : Bool :=
  !(decide (parse v.timestamp < now - (minutes : ℚ) * 60))

/-- The minute keys of the in-window records, in arrival order (the
multiset the `buckets` counter is built from). -/
def windowKeys (parse : Option String → ℚ) (now : ℚ) (minutes : ℕ)
    (records : List Violation) : List ℤ :=
  (records.filter (inWindow parse now minutes)).map
    (fun v => minuteKey (parse v.timestamp))

/-- The sorted sparse buckets of the timeline endpoint: in-window records
grouped by minute key (a `defaultdict(int)` counter), emitted as
`sorted(buckets.items())`. -/
def timelinePoints (parse : Option String → ℚ) (now : ℚ) (minutes : ℕ)
    (records : List Violation) : List (ℤ × ℕ) :=
  (List.insertionSort (· ≤ ·) (firstDedup (windowKeys parse now minutes records))).map
    (fun k => (k, (windowKeys parse now minutes records).countP (· == k)))

/-- Expression `max(ordered, key=lambda item: item[1], default=(None, 0))` followed by
the `if peak[0] else None` sentinel: `none` exactly when there is no bucket. -/
def timelinePeak (points : List (ℤ × ℕ)) : Option (ℤ × ℕ) :=
  argmaxFirst points

/-- Full `/timeline` response body. -/
structure TimelineResponse where
  window_minutes : ℕ
  points : List (ℤ × ℕ)
  peak_minute : Option (ℤ × ℕ)
deriving DecidableEq

/-- The `/timeline` endpoint. -/
def timeline (parse : Option String → ℚ) (now : ℚ) (minutes : ℕ)
    (records : List Violation) : TimelineResponse :=
  { window_minutes := minutes
    points := timelinePoints parse now minutes records
    peak_minute := timelinePeak (timelinePoints parse now minutes records) }

/-! ### Connection registry (`active_students` in `main.py`) -/

/-- Python dict assignment `d[k] = v`: replace in place if `k` is present,
otherwise append. -/
def dictInsert [DecidableEq κ] : List (κ × β) → κ → β → List (κ × β)
  | [], k, v => [(k, v)]
  | (k0, v0) :: rest, k, v =>
    if k0 = k then (k0, v) :: rest
    else (k0, v0) :: dictInsert rest k v

/-- Python `d.pop(k, None)` on a dict (at most one entry per key): drop the
first entry with key `k`. -/
def dictPop [DecidableEq κ] : List (κ × β) → κ → List (κ × β)
  | [], _ => []
  | (k0, v0) :: rest, k =>
    if k0 = k then rest
    else (k0, v0) :: dictPop rest k

/-- Python `d.get(k)` / `k in d` lookup. -/
def dictGet [DecidableEq κ] : List (κ × β) → κ → Option β
  | [], _ => none
  | (k0, v0) :: rest, k => if k0 = k then some v0 else dictGet rest k

/-- Map `active_students`: student id → connection handle (a `ws` object,
modelled as a number). -/
abbrev Registry := List (String × ℕ)

/-- Assignment `active_students[student_id] = ws` on connect. -/
def registerStudent (reg : Registry) (id : String) (h : ℕ) : Registry :=
  dictInsert reg id h

/-- The disconnect cleanup of `student_ws`:
`active_students.pop(student_id, None)`.  The disconnecting handle `h` is in
scope (`ws`) but the code does not consult it. -/
def unregisterStudent (reg : Registry) (id : String) (h : ℕ) : Registry :=
  dictPop reg id

/-! ### Broadcast relay and violation intake (`main.py`) -/

/-- An observer (teacher) connection: `ok = true` iff `send_json` on this
handle succeeds; `ok = false` iff it raises. -/
structure Teacher where
  handle : ℕ
  ok : Bool
deriving DecidableEq

/-- The fan-out loop of `notify_violation`: each `send_json` is wrapped in
`try/except Exception`, so a failing observer is skipped and the loop
continues.  Result: the handles actually delivered to.  No exception
escapes, hence the plain (non-`Except`) return type. -/
def notifySends : List Teacher → List ℕ
  | [] => []
  | t :: rest => if t.ok then t.handle :: notifySends rest else notifySends rest

/-- The fan-out loop of the `"screen"` branch of `student_ws`: the
`send_json` calls are NOT wrapped in `try/except`, so the first failing
observer raises out of the loop.  Result: the handles delivered before the
failure, and whether an exception escaped. -/
def frameSends : List Teacher → List ℕ × Bool
  | [] => ([], false)
  | t :: rest =>
    if t.ok then
      let r := frameSends rest
      (t.handle :: r.1, r.2)
    else ([], true)

/-- Map `last_frames`: student id → latest base64 frame. -/
abbrev FrameCache := List (String × String)

/-- The `"screen"` branch of `student_ws`: `last_frames[student_id] =
msg["image"]` runs first, then the fan-out loop; a raise in the loop does
not undo the cache write. -/
def handleScreenFrame (cache : FrameCache) (sid img : String)
    (teachers : List Teacher) : FrameCache × List ℕ × Bool :=
  let cache2 := dictInsert cache sid img
  let r := frameSends teachers
  (cache2, r.1, r.2)

/-- A violation message as built by `notify_violation` (the `"type"` field
is the constant `"violation_alert"` and is omitted). -/
structure VMsg where
  student_id : String
  violation_type : String
  violation_data : String
  timestamp : String
deriving DecidableEq

/-- The server state touched by `notify_violation` and `get_violations`. -/
structure ServerState where
  activeViolations : List VMsg
  teachers : List Teacher
deriving DecidableEq

/-- The acknowledgement body `{"status": "ok", "teachers_notified":
len(teachers)}`. -/
structure Ack where
  status : String
  teachers_notified : ℕ
deriving DecidableEq

/-- Endpoint `POST /notify`: append the record to `active_violations`, then fan out
to all teachers with per-observer exception handling, then return the
acknowledgement.  Returns (new state, ack, delivered handles). -/
def notifyViolation (st : ServerState) (m : VMsg) :
    ServerState × Ack × List ℕ :=
  let st2 : ServerState := { st with activeViolations := st.activeViolations ++ [m] }
  let delivered := notifySends st.teachers
  (st2, { status := "ok", teachers_notified := st.teachers.length }, delivered)

/-- Endpoint `GET /violations`. -/
def getViolations (st : ServerState) : List VMsg :=
  st.activeViolations

/-! ### Concrete inputs used by witnesses -/

/-- A parser that recognises only `"iso"` (used to instantiate the abstract
`fromisoformat` in witnesses). -/
def wIso (s : String) : Option ℚ := if s = "iso" then some 11 else none

/-- A parser that recognises only `"ymd"`. -/
def wYmd (s : String) : Option ℚ := if s = "ymd" then some 22 else none

/-- A parser that recognises only `"dmy"`. -/
def wDmy (s : String) : Option ℚ := if s = "dmy" then some 33 else none

/-- A concrete `_parse_timestamp` instance for witnesses: every timestamp
string parses to instant `0`. -/
def wParse (s : Option String) : ℚ :=
  parseTimestamp (fun _ => some 0) (fun _ => none) (fun _ => none) 0 s

/-- A concrete record of student `"A"`. -/
def wRecA : Violation := { student_id := some "A", violation_type := some "tab_switch", timestamp := some "t" }

/-- A concrete record of student `"B"`. -/
def wRecB : Violation := { student_id := some "B", violation_type := some "phone_detected", timestamp := some "t" }

/-- A concrete record with both id and type missing. -/
def wRecU : Violation := { student_id := none, violation_type := none, timestamp := none }

/-! ## Helper lemmas -/

theorem ageMinutes_nonneg (now ts : ℚ) : 0 ≤ ageMinutes now ts :=
  le_max_right _ _

theorem recencyFactor_pos {a : ℚ} (ha : 0 ≤ a) : 0 < recencyFactor a := by
  unfold recencyFactor
  positivity

theorem recencyFactor_le_one {a : ℚ} (ha : 0 ≤ a) : recencyFactor a ≤ 1 := by
  unfold recencyFactor
  rw [div_le_one (by linarith)]
  linarith

theorem baseWeight_pos (t : String) : 0 < baseWeight t := by
  unfold baseWeight severityWeights
  split
  · norm_num [Option.getD]
  · split
    · norm_num [Option.getD]
    · split
      · norm_num [Option.getD]
      · split
        · norm_num [Option.getD]
        · split
          · norm_num [Option.getD]
          · norm_num [Option.getD]

theorem violTerm_pos (parse : Option String → ℚ) (now : ℚ) (v : Violation) :
    0 < violTerm parse now v :=
  mul_pos (baseWeight_pos _) (recencyFactor_pos (ageMinutes_nonneg _ _))

theorem round2_mono {a b : ℚ} (h : a ≤ b) : round2 a ≤ round2 b := by
  unfold round2
  have : round (a * 100) ≤ round (b * 100) := by
    rw [round_eq, round_eq]
    exact Int.floor_le_floor (by linarith)
  gcongr

/-! ## C3: timestamp normalisation fallback order -/

/-- C3.  Timestamp normalisation is total (the embedding returns a plain
instant, no error component) and follows the fallback order of
`_parse_timestamp`: empty/absent input yields `now`; otherwise the ISO
parse, then the `YYYY-MM-DD HH:MM:SS` parse, then the `DD.MM.YYYY HH:MM:SS`
parse are tried in order and the first success is returned; if all three
fail, the result is `now`, and no parse error propagates. -/
theorem parse_timestamp_fallback_order
    (isoP f1P f2P : String → Option ℚ) (nowDT : ℚ) (s : String) (d : ℚ) :
    (parseTimestamp isoP f1P f2P nowDT none = nowDT) ∧
    (parseTimestamp isoP f1P f2P nowDT (some "") = nowDT) ∧
    (s ≠ "" → isoP s = some d →
      parseTimestamp isoP f1P f2P nowDT (some s) = d) ∧
    (s ≠ "" → isoP s = none → f1P s = some d →
      parseTimestamp isoP f1P f2P nowDT (some s) = d) ∧
    (s ≠ "" → isoP s = none → f1P s = none → f2P s = some d →
      parseTimestamp isoP f1P f2P nowDT (some s) = d) ∧
    (s ≠ "" → isoP s = none → f1P s = none → f2P s = none →
      parseTimestamp isoP f1P f2P nowDT (some s) = nowDT) := by
  refine ⟨rfl, rfl, ?_, ?_, ?_, ?_⟩
  · intro hs hiso
    simp [parseTimestamp, hs, hiso]
  · intro hs hiso h1
    simp [parseTimestamp, hs, hiso, h1]
  · intro hs hiso h1 h2
    simp [parseTimestamp, hs, hiso, h1, h2]
  · intro hs hiso h1 h2
    simp [parseTimestamp, hs, hiso, h1, h2]

/-- Witness for C3 on the concrete parsers `wIso`, `wYmd`, `wDmy`: the
third fallback fires for `"dmy"`, and a string no parser accepts falls back
to `now = 9`. -/
theorem parse_timestamp_fallback_order_witness :
    parseTimestamp wIso wYmd wDmy 9 (some "dmy") = 33 ∧
    parseTimestamp wIso wYmd wDmy 9 (some "junk") = 9 := by
  constructor
  · exact (parse_timestamp_fallback_order wIso wYmd wDmy 9 "dmy" 33).2.2.2.2.1
      (by decide) (by simp [wIso]) (by simp [wYmd]) (by simp [wDmy])
  · exact (parse_timestamp_fallback_order wIso wYmd wDmy 9 "junk" 0).2.2.2.2.2
      (by decide) (by simp [wIso]) (by simp [wYmd]) (by simp [wDmy])

/-! ## C4: risk level thresholds -/

/-- C4.  `_risk_level` is total, exhaustive and non-overlapping with exact
boundaries: `score ≥ 30 → critical`, `15 ≤ score < 30 → high`,
`7 ≤ score < 15 → medium`, `score < 7 → low`. -/
theorem risk_level_thresholds (score : ℚ) :
    (30 ≤ score → riskLevel score = "critical") ∧
    (15 ≤ score → score < 30 → riskLevel score = "high") ∧
    (7 ≤ score → score < 15 → riskLevel score = "medium") ∧
    (score < 7 → riskLevel score = "low") := by
  unfold riskLevel
  refine ⟨?_, ?_, ?_, ?_⟩ <;> intros <;>
    repeat first
      | rfl
      | (rw [if_pos (by linarith)])
      | (rw [if_neg (by linarith)])

/-- Witness for C4 at the boundary scores of the claim: 6.99 is low, 7.00
medium, 14.99 medium, 15.00 high, 29.99 high, 30.00 critical. -/
theorem risk_level_thresholds_witness :
    riskLevel (699/100) = "low" ∧ riskLevel 7 = "medium" ∧
    riskLevel (1499/100) = "medium" ∧ riskLevel 15 = "high" ∧
    riskLevel (2999/100) = "high" ∧ riskLevel 30 = "critical" :=
  ⟨(risk_level_thresholds (699/100)).2.2.2 (by norm_num),
   (risk_level_thresholds 7).2.2.1 (by norm_num) (by norm_num),
   (risk_level_thresholds (1499/100)).2.2.1 (by norm_num) (by norm_num),
   (risk_level_thresholds 15).2.1 (by norm_num) (by norm_num),
   (risk_level_thresholds (2999/100)).2.1 (by norm_num) (by norm_num),
   (risk_level_thresholds 30).1 (by norm_num)⟩

/-! ## C5: recency factor bounds -/

/-- C5.  With `age_minutes = max((now - ts)/60, 0)`, the recency factor
`1/(1 + age_minutes/20)` lies strictly in `(0, 1]`; it equals `1` exactly
when the record occurred at `now`, and is strictly below `1/2` whenever the
record is older than 20 minutes (`now - ts > 1200` seconds). -/
theorem recency_factor_bounds (now ts : ℚ) :
    0 < recencyFactor (ageMinutes now ts) ∧
    recencyFactor (ageMinutes now ts) ≤ 1 ∧
    (ts = now → recencyFactor (ageMinutes now ts) = 1) ∧
    (1200 < now - ts → recencyFactor (ageMinutes now ts) < 1/2) := by
  refine ⟨recencyFactor_pos (ageMinutes_nonneg _ _),
    recencyFactor_le_one (ageMinutes_nonneg _ _), ?_, ?_⟩
  · intro h
    subst h
    norm_num [recencyFactor, ageMinutes]
  · intro h
    have hage : 20 < ageMinutes now ts := by
      unfold ageMinutes
      rw [lt_max_iff]
      left
      linarith
    unfold recencyFactor
    rw [div_lt_div_iff₀ (by linarith) (by norm_num)]
    linarith

/-- Witness for C5: at `now = ts = 0` the factor is exactly `1`; a record
1260 seconds (21 minutes) old has factor below `1/2`. -/
theorem recency_factor_bounds_witness :
    recencyFactor (ageMinutes 0 0) = 1 ∧
    recencyFactor (ageMinutes 1260 0) < 1/2 :=
  ⟨(recency_factor_bounds 0 0).2.2.1 rfl,
   (recency_factor_bounds 1260 0).2.2.2 (by norm_num)⟩

/-! ## Dictionary lemmas for the registry -/

theorem dictGet_eq_none_of_not_mem [DecidableEq κ] (l : List (κ × β)) (k : κ)
    (hk : k ∉ l.map Prod.fst) : dictGet l k = none := by
  induction l with
  | nil => rfl
  | cons p rest ih =>
    obtain ⟨k0, v0⟩ := p
    simp only [List.map_cons, List.mem_cons] at hk
    push_neg at hk
    have hne : ¬ k0 = k := fun h => hk.1 h.symm
    simp only [dictGet, if_neg hne]
    exact ih hk.2

theorem mem_keys_dictInsert [DecidableEq κ] (l : List (κ × β)) (k a : κ) (v : β) :
    a ∈ (dictInsert l k v).map Prod.fst ↔ a ∈ l.map Prod.fst ∨ a = k := by
  induction l with
  | nil => simp [dictInsert]
  | cons p rest ih =>
    obtain ⟨k0, v0⟩ := p
    by_cases h : k0 = k
    · subst h
      simp [dictInsert]
      tauto
    · simp only [dictInsert, if_neg h, List.map_cons, List.mem_cons, ih]
      tauto

theorem nodup_keys_dictInsert [DecidableEq κ] (l : List (κ × β)) (k : κ) (v : β)
    (hl : (l.map Prod.fst).Nodup) : ((dictInsert l k v).map Prod.fst).Nodup := by
  induction l with
  | nil => simp [dictInsert]
  | cons p rest ih =>
    obtain ⟨k0, v0⟩ := p
    simp only [List.map_cons, List.nodup_cons] at hl
    by_cases h : k0 = k
    · subst h
      simpa [dictInsert, List.nodup_cons] using hl
    · simp only [dictInsert, if_neg h, List.map_cons, List.nodup_cons]
      refine ⟨?_, ih hl.2⟩
      rw [mem_keys_dictInsert]
      push_neg
      exact ⟨hl.1, h⟩

theorem dictGet_dictPop [DecidableEq κ] (l : List (κ × β)) (k : κ)
    (hl : (l.map Prod.fst).Nodup) : dictGet (dictPop l k) k = none := by
  induction l with
  | nil => rfl
  | cons p rest ih =>
    obtain ⟨k0, v0⟩ := p
    simp only [List.map_cons, List.nodup_cons] at hl
    by_cases h : k0 = k
    · subst h
      simp only [dictPop, if_pos rfl]
      exact dictGet_eq_none_of_not_mem rest k0 hl.1
    · simp only [dictPop, if_neg h, dictGet, if_neg h]
      exact ih hl.2

/-! ## C1: stale-disconnect guard (corrected) -/

/-- C1 counterexample.  The claim says that after `register_student(A, h1)`
then `register_student(A, h2)`, the disconnect of the stale handle
`unregister_student(A, h1)` must NOT remove the entry (it still holds `h2`).
In the code the disconnect cleanup is `active_students.pop(student_id,
None)`, which never consults the handle: the entry is removed, and the
lookup for `"A"` yields `none` instead of `some 2`. -/
theorem registry_stale_guard_counterexample :
    dictGet
      (unregisterStudent (registerStudent (registerStudent [] "A" 1) "A" 2) "A" 1)
      "A" = none := by decide

/-- C1 amended.  `unregister_student(id, handle)` removes the registry entry
for `id` unconditionally, ignoring the handle: on any registry with distinct
keys, a disconnect of ANY handle (stale or current) removes `id`'s entry; in
particular after `register_student(A, h1)` then `register_student(A, h2)`,
both `unregister_student(A, h1)` and `unregister_student(A, h2)` remove the
entry. -/
theorem unregister_student_unconditional (reg : Registry) (id : String)
    (h1 h2 hd : ℕ) (hnd : (reg.map Prod.fst).Nodup) :
    dictGet (unregisterStudent reg id hd) id = none ∧
    dictGet
      (unregisterStudent (registerStudent (registerStudent reg id h1) id h2) id h1)
      id = none ∧
    dictGet
      (unregisterStudent (registerStudent (registerStudent reg id h1) id h2) id h2)
      id = none := by
  have hnd2 : (((registerStudent (registerStudent reg id h1) id h2)).map Prod.fst).Nodup :=
    nodup_keys_dictInsert _ _ _ (nodup_keys_dictInsert _ _ _ hnd)
  exact ⟨dictGet_dictPop reg id hnd, dictGet_dictPop _ id hnd2, dictGet_dictPop _ id hnd2⟩

/-- Witness for the amended C1 on a concrete registry `[("B", 7)]`. -/
theorem unregister_student_unconditional_witness :
    dictGet (unregisterStudent [("B", 7)] "A" 5) "A" = none ∧
    dictGet
      (unregisterStudent (registerStudent (registerStudent [("B", 7)] "A" 1) "A" 2) "A" 1)
      "A" = none ∧
    dictGet
      (unregisterStudent (registerStudent (registerStudent [("B", 7)] "A" 1) "A" 2) "A" 2)
      "A" = none :=
  unregister_student_unconditional [("B", 7)] "A" 1 2 5 (by decide)

/-! ## C2: observer-local delivery failure (corrected) -/

/-- C2 counterexample.  The claim says every broadcast of a frame or
violation catches a per-observer delivery failure and still delivers to the
remaining observers without raising.  The frame fan-out in `student_ws` has
no `try/except`: with observers `[closed (handle 1), open (handle 2)]`, the
frame broadcast delivers to nobody — the open observer 2 is skipped — and
the exception escapes the loop. -/
theorem frame_broadcast_failure_counterexample :
    (frameSends [⟨1, false⟩, ⟨2, true⟩]).1 = [] ∧
    (frameSends [⟨1, false⟩, ⟨2, true⟩]).2 = true := by decide

theorem notifySends_eq_filter (teachers : List Teacher) :
    notifySends teachers = (teachers.filter (·.ok)).map (·.handle) := by
  induction teachers with
  | nil => rfl
  | cons t rest ih =>
    cases ht : t.ok <;> simp [notifySends, List.filter_cons, ht, ih]

theorem frameSends_eq_takeWhile (teachers : List Teacher) :
    frameSends teachers =
      ((teachers.takeWhile (·.ok)).map (·.handle), !(teachers.all (·.ok))) := by
  induction teachers with
  | nil => rfl
  | cons t rest ih =>
    cases ht : t.ok <;> simp [frameSends, List.takeWhile_cons, List.all_cons, ht, ih]

/-- C2 amended.  Only the violation broadcast (`notify_violation`) is
observer-locally fault tolerant: it delivers to exactly the open observers,
skipping failed ones without raising (total function, no error component).
The frame broadcast in `student_ws` is not: it delivers only to the longest
open prefix of the observer list and lets the first failure escape (error
flag set iff some observer is closed).  The frame-cache update is performed
before the fan-out and is never rolled back by a delivery failure. -/
theorem broadcast_failure_isolation (teachers : List Teacher)
    (cache : FrameCache) (sid img : String) :
    notifySends teachers = (teachers.filter (·.ok)).map (·.handle) ∧
    frameSends teachers =
      ((teachers.takeWhile (·.ok)).map (·.handle), !(teachers.all (·.ok))) ∧
    (handleScreenFrame cache sid img teachers).1 = dictInsert cache sid img :=
  ⟨notifySends_eq_filter teachers, frameSends_eq_takeWhile teachers, rfl⟩

/-! ## C9: log-append durability under broadcast failure (confirmed) -/

/-- C9.  `notify_violation` appends the record to `active_violations` before
the fan-out; the record is in the log returned by `get_violations` on the
resulting state regardless of observer failures (the log is the same even if
every observer's send fails), and the acknowledgement is always
`{"status": "ok", "teachers_notified": len(teachers)}`, with `0` a valid
value when no observers are connected. -/
theorem notify_violation_log_durability (st : ServerState) (m : VMsg) :
    (notifyViolation st m).1.activeViolations = st.activeViolations ++ [m] ∧
    m ∈ getViolations (notifyViolation st m).1 ∧
    (notifyViolation st m).2.1 =
      { status := "ok", teachers_notified := st.teachers.length } ∧
    (notifyViolation
        { st with teachers := st.teachers.map (fun t => { t with ok := false }) }
        m).1.activeViolations = st.activeViolations ++ [m] ∧
    (notifyViolation { activeViolations := st.activeViolations, teachers := [] }
        m).2.1 = { status := "ok", teachers_notified := 0 } := by
  refine ⟨rfl, ?_, rfl, rfl, rfl⟩
  simp [getViolations, notifyViolation]

/-! ## First-occurrence deduplication lemmas -/

theorem mem_firstDedupAux [DecidableEq α] :
    ∀ (l seen : List α) (a : α), a ∈ firstDedupAux seen l ↔ a ∈ l ∧ a ∉ seen
  | [], seen, a => by simp [firstDedupAux]
  | x :: xs, seen, a => by
    by_cases hx : x ∈ seen
    · rw [firstDedupAux, if_pos hx, mem_firstDedupAux xs seen a]
      constructor
      · rintro ⟨h1, h2⟩
        exact ⟨List.mem_cons_of_mem _ h1, h2⟩
      · rintro ⟨h1, h2⟩
        rcases List.mem_cons.mp h1 with rfl | h1
        · exact absurd hx h2
        · exact ⟨h1, h2⟩
    · rw [firstDedupAux, if_neg hx, List.mem_cons, mem_firstDedupAux xs (x :: seen) a]
      constructor
      · rintro (rfl | ⟨h1, h2⟩)
        · exact ⟨List.mem_cons_self a xs, hx⟩
        · refine ⟨List.mem_cons_of_mem _ h1, fun h => h2 (List.mem_cons_of_mem _ h)⟩
      · rintro ⟨h1, h2⟩
        rcases List.mem_cons.mp h1 with rfl | h1
        · exact Or.inl rfl
        · by_cases hax : a = x
          · exact Or.inl hax
          · refine Or.inr ⟨h1, ?_⟩
            rw [List.mem_cons]
            push_neg
            exact ⟨hax, h2⟩

theorem nodup_firstDedupAux [DecidableEq α] :
    ∀ (l seen : List α), (firstDedupAux seen l).Nodup
  | [], _ => List.nodup_nil
  | x :: xs, seen => by
    by_cases hx : x ∈ seen
    · rw [firstDedupAux, if_pos hx]
      exact nodup_firstDedupAux xs seen
    · rw [firstDedupAux, if_neg hx, List.nodup_cons]
      refine ⟨?_, nodup_firstDedupAux xs (x :: seen)⟩
      rw [mem_firstDedupAux]
      rintro ⟨-, h⟩
      exact h (List.mem_cons_self x seen)

theorem mem_firstDedup [DecidableEq α] (l : List α) (a : α) :
    a ∈ firstDedup l ↔ a ∈ l := by
  rw [firstDedup, mem_firstDedupAux]
  simp

theorem nodup_firstDedup [DecidableEq α] (l : List α) : (firstDedup l).Nodup :=
  nodup_firstDedupAux l []

/-! ## Counting lemmas: summing per-key counts recovers the length -/

theorem sum_map_add {α : Type*} (l : List α) (f g : α → ℕ) :
    (l.map (fun x => f x + g x)).sum = (l.map f).sum + (l.map g).sum := by
  induction l with
  | nil => rfl
  | cons x xs ih =>
    simp only [List.map_cons, List.sum_cons, ih]
    omega

theorem sum_indicator [DecidableEq α] (u : List α) (k : α) (hu : u.Nodup)
    (hk : k ∈ u) :
    (u.map (fun x => if k = x then 1 else 0)).sum = 1 := by
  induction u with
  | nil => cases hk
  | cons x xs ih =>
    rw [List.nodup_cons] at hu
    rcases List.mem_cons.mp hk with rfl | hk2
    · have hz : (xs.map (fun y => if k = y then 1 else 0)).sum = 0 := by
        apply List.sum_eq_zero
        intro n hn
        rw [List.mem_map] at hn
        obtain ⟨y, hy, rfl⟩ := hn
        refine if_neg ?_
        intro h
        exact hu.1 (by rw [h]; exact hy)
      rw [List.map_cons, List.sum_cons, if_pos rfl, hz]
    · have hkx : k ≠ x := fun h => hu.1 (h ▸ hk2)
      simp only [List.map_cons, List.sum_cons, if_neg hkx]
      rw [ih hu.2 hk2]

theorem sum_countP_eq [DecidableEq α] (u : List α) (hu : u.Nodup) :
    ∀ keys : List α, (∀ x ∈ keys, x ∈ u) →
      (u.map (fun k => keys.countP (fun y => y = k))).sum = keys.length
  | [], _ => by
    simp only [List.countP_nil]
    exact List.sum_eq_zero (by simp)
  | k0 :: keys, hk => by
    have hrec := sum_countP_eq u hu keys
      (fun x hx => hk x (List.mem_cons_of_mem _ hx))
    have hfun : (fun k => List.countP (fun y => decide (y = k)) (k0 :: keys)) =
        (fun k => List.countP (fun y => decide (y = k)) keys +
          if k0 = k then 1 else 0) := by
      funext k
      rw [List.countP_cons]
      by_cases h : k0 = k <;> simp [h]
    calc (u.map (fun k => List.countP (fun y => decide (y = k)) (k0 :: keys))).sum
        = (u.map (fun k => List.countP (fun y => decide (y = k)) keys +
            if k0 = k then 1 else 0)).sum := by rw [hfun]
      _ = (u.map (fun k => List.countP (fun y => decide (y = k)) keys)).sum +
            (u.map (fun k => if k0 = k then 1 else 0)).sum := sum_map_add u _ _
      _ = keys.length + 1 := by
            rw [hrec, sum_indicator u k0 hu (hk k0 (List.mem_cons_self _ _))]
      _ = (k0 :: keys).length := (List.length_cons _ _).symm

/-! ## The sort order of `_compute_student_risks` -/

instance instTotalsummGE : IsTotal StudentSummary summGE := by
  constructor
  intro a b
  rcases lt_trichotomy a.risk_score b.risk_score with h | h | h
  · exact Or.inr (Or.inl h)
  · rcases le_total a.incidents b.incidents with hi | hi
    · exact Or.inr (Or.inr ⟨h, hi⟩)
    · exact Or.inl (Or.inr ⟨h.symm, hi⟩)
  · exact Or.inl (Or.inl h)

instance instTranssummGE : IsTrans StudentSummary summGE := by
  constructor
  rintro a b c (h1 | ⟨h1, h2⟩) (h3 | ⟨h3, h4⟩)
  · exact Or.inl (lt_trans h3 h1)
  · exact Or.inl (h3 ▸ h1)
  · exact Or.inl (h1 ▸ h3)
  · exact Or.inr ⟨h3.trans h1, h4.trans h2⟩

/-! ## Characterisation of `computeStudentRisks` -/

theorem student_id_summarize (parse : Option String → ℚ) (now : ℚ)
    (records : List Violation) (sid : String) :
    (summarize parse now records sid).student_id = sid := rfl

theorem mem_compute_iff (parse : Option String → ℚ) (now : ℚ)
    (records : List Violation) (s : StudentSummary) :
    s ∈ computeStudentRisks parse now records ↔
      ∃ sid, sid ∈ records.map effStudentId ∧ s = summarize parse now records sid := by
  rw [computeStudentRisks, List.Perm.mem_iff (List.perm_insertionSort _ _), List.mem_map]
  constructor
  · rintro ⟨sid, h1, rfl⟩
    exact ⟨sid, (mem_firstDedup _ _).mp h1, rfl⟩
  · rintro ⟨sid, h1, rfl⟩
    exact ⟨sid, (mem_firstDedup _ _).mpr h1, rfl⟩

theorem incidents_summarize (parse : Option String → ℚ) (now : ℚ)
    (records : List Violation) (sid : String) :
    (summarize parse now records sid).incidents =
      (records.map effStudentId).countP (fun y => y = sid) := by
  show (records.filter (fun r => effStudentId r == sid)).length = _
  rw [← List.countP_eq_length_filter, List.countP_map]
  apply List.countP_congr
  intro r _
  simp [Function.comp, beq_iff_eq]

theorem map_studentIds_compute (parse : Option String → ℚ) (now : ℚ)
    (records : List Violation) :
    ((computeStudentRisks parse now records).map (fun s => s.student_id)).Perm
      (firstDedup (records.map effStudentId)) := by
  have hp : (computeStudentRisks parse now records).Perm
      ((firstDedup (records.map effStudentId)).map (summarize parse now records)) :=
    List.perm_insertionSort _ _
  have hmap := hp.map (fun s => s.student_id)
  have hid : ((fun s : StudentSummary => s.student_id) ∘ summarize parse now records) = id :=
    rfl
  rwa [List.map_map, hid, List.map_id] at hmap

theorem risk_score_summarize (parse : Option String → ℚ) (now : ℚ)
    (records : List Violation) (sid : String) :
    (summarize parse now records sid).risk_score =
      round2 (rawScore parse now (records.filter (fun r => effStudentId r == sid))) := rfl

/-! ## C10: the risk computation never drops a record -/

/-- C10.  `_compute_student_risks` drops no record: ids default to
`"unknown"` when `student_id` is missing and types to `"unknown"` (with the
default base weight `1.5`) when `violation_type` is missing; the output has
exactly one summary per distinct (possibly `"unknown"`) student id — its id
list is duplicate-free and covers exactly the defaulted ids of the input —
and the incidents fields sum to the length of the input list. -/
theorem risk_computation_preserves_records (parse : Option String → ℚ)
    (now : ℚ) (records : List Violation) (sid : String) (v : Violation) :
    ((computeStudentRisks parse now records).map (fun s => s.student_id)).Nodup ∧
    (sid ∈ (computeStudentRisks parse now records).map (fun s => s.student_id) ↔
      sid ∈ records.map effStudentId) ∧
    ((computeStudentRisks parse now records).map (fun s => s.incidents)).sum =
      records.length ∧
    (v.student_id = none → effStudentId v = "unknown") ∧
    (v.violation_type = none →
      effType v = "unknown" ∧ baseWeight (effType v) = 3/2) := by
  have hperm := map_studentIds_compute parse now records
  refine ⟨?_, ?_, ?_, ?_, ?_⟩
  · exact hperm.nodup_iff.mpr (nodup_firstDedup _)
  · rw [hperm.mem_iff, mem_firstDedup]
  · have hp : (computeStudentRisks parse now records).Perm
        ((firstDedup (records.map effStudentId)).map (summarize parse now records)) :=
      List.perm_insertionSort _ _
    have hsum := (hp.map (fun s => s.incidents)).sum_eq
    rw [hsum, List.map_map]
    have hfun : ((fun s : StudentSummary => s.incidents) ∘ summarize parse now records) =
        (fun k => (records.map effStudentId).countP (fun y => y = k)) := by
      funext k
      exact incidents_summarize parse now records k
    rw [hfun, sum_countP_eq (firstDedup (records.map effStudentId))
      (nodup_firstDedup _) (records.map effStudentId)
      (fun x hx => (mem_firstDedup _ _).mpr hx), List.length_map]
  · intro h
    simp [effStudentId, h]
  · intro h
    have ht : effType v = "unknown" := by simp [effType, h]
    exact ⟨ht, by rw [ht]; simp [baseWeight, severityWeights]⟩

/-- Witness for C10 on three concrete records (one per student `"A"`, one
per student `"B"`, one with both fields missing): the summaries' incident
counts sum to 3, and the id-missing record surfaces as student
`"unknown"`. -/
theorem risk_computation_preserves_records_witness :
    ((computeStudentRisks wParse 0 [wRecA, wRecB, wRecU]).map
      (fun s => s.incidents)).sum = 3 ∧
    ("unknown" ∈ (computeStudentRisks wParse 0 [wRecA, wRecB, wRecU]).map
      (fun s => s.student_id)) ∧
    effStudentId wRecU = "unknown" :=
  ⟨(risk_computation_preserves_records wParse 0 [wRecA, wRecB, wRecU] "" wRecU).2.2.1,
   ((risk_computation_preserves_records wParse 0 [wRecA, wRecB, wRecU] "unknown"
      wRecU).2.1).mpr (by simp [effStudentId, wRecA, wRecB, wRecU]),
   ((risk_computation_preserves_records wParse 0 [wRecA, wRecB, wRecU] ""
      wRecU).2.2.2.1) rfl⟩

/-! ## C6: risk-score monotonicity in the record list -/

/-- C6.  For a fixed evaluation instant, appending one more record never
lowers any student's computed risk score: if `s1` is the summary for `sid`
over `records` and `s2` the summary for `sid` over `records ++ [r]`, then
`s1.risk_score ≤ s2.risk_score` (each record contributes a strictly
positive `base_weight * recency_factor` term, and both the sum and the
2-decimal rounding are monotone). -/
theorem risk_score_monotone (parse : Option String → ℚ) (now : ℚ)
    (records : List Violation) (r : Violation) (sid : String)
    (s1 s2 : StudentSummary)
    (h1 : s1 ∈ computeStudentRisks parse now records)
    (h2 : s2 ∈ computeStudentRisks parse now (records ++ [r]))
    (hs1 : s1.student_id = sid) (hs2 : s2.student_id = sid) :
    s1.risk_score ≤ s2.risk_score := by
  rw [mem_compute_iff] at h1 h2
  obtain ⟨sid1, -, rfl⟩ := h1
  obtain ⟨sid2, -, rfl⟩ := h2
  rw [student_id_summarize] at hs1 hs2
  rw [risk_score_summarize, risk_score_summarize, hs1, hs2]
  apply round2_mono
  rw [List.filter_append]
  unfold rawScore
  rw [List.map_append, List.sum_append]
  have hnn : 0 ≤ (([r].filter (fun x => effStudentId x == sid)).map
      (violTerm parse now)).sum := by
    apply List.sum_nonneg
    intro x hx
    rw [List.mem_map] at hx
    obtain ⟨v, -, rfl⟩ := hx
    exact le_of_lt (violTerm_pos parse now v)
  linarith

/-- Witness for C6: duplicating student `"A"`'s single record does not
lower `"A"`'s score. -/
theorem risk_score_monotone_witness :
    (summarize wParse 0 [wRecA] "A").risk_score ≤
      (summarize wParse 0 ([wRecA] ++ [wRecA]) "A").risk_score :=
  risk_score_monotone wParse 0 [wRecA] wRecA "A"
    (summarize wParse 0 [wRecA] "A")
    (summarize wParse 0 ([wRecA] ++ [wRecA]) "A")
    ((mem_compute_iff wParse 0 [wRecA] _).mpr
      ⟨"A", by simp [effStudentId, wRecA], rfl⟩)
    ((mem_compute_iff wParse 0 ([wRecA] ++ [wRecA]) _).mpr
      ⟨"A", by simp [effStudentId, wRecA], rfl⟩)
    rfl rfl

/-! ## C7: ranking order and the leaderboard prefix -/

/-- C7.  The sequence returned by `_compute_student_risks` is sorted
descending in the lexicographic order on `(risk_score, incidents)` (the
`reverse=True` sort key): pairwise, every earlier summary dominates every
later one under `summGE`; consequently, of two entries with equal
`risk_score`, the one with more incidents appears first; and
`leaderboard(limit)` (with the route's `1 ≤ limit ≤ 100` constraint) is
exactly the first `limit` entries of that order. -/
theorem leaderboard_order (parse : Option String → ℚ) (now : ℚ)
    (records : List Violation) (limit : ℕ)
    (_hlo : 1 ≤ limit) (_hhi : limit ≤ 100) :
    (computeStudentRisks parse now records).Sorted summGE ∧
    (∀ i j : Fin (computeStudentRisks parse now records).length, i < j →
      ((computeStudentRisks parse now records).get i).risk_score =
        ((computeStudentRisks parse now records).get j).risk_score →
      ((computeStudentRisks parse now records).get j).incidents ≤
        ((computeStudentRisks parse now records).get i).incidents) ∧
    leaderboard parse now records limit =
      (computeStudentRisks parse now records).take limit := by
  have hsorted : (computeStudentRisks parse now records).Sorted summGE :=
    List.sorted_insertionSort summGE _
  refine ⟨hsorted, ?_, rfl⟩
  intro i j hij heq
  have hrel := hsorted.rel_get_of_lt hij
  rcases hrel with hlt | ⟨-, hle⟩
  · exact absurd hlt (by rw [heq]; exact lt_irrefl _)
  · exact hle

/-- Witness for C7 at `limit = 10` on two concrete records. -/
theorem leaderboard_order_witness :
    leaderboard wParse 0 [wRecA, wRecB] 10 =
      (computeStudentRisks wParse 0 [wRecA, wRecB]).take 10 :=
  (leaderboard_order wParse 0 [wRecA, wRecB] 10 (by norm_num) (by norm_num)).2.2

/-! ## Timeline lemmas -/

theorem argmaxFirst_spec {α : Type} :
    ∀ l : List (α × ℕ),
      (l = [] ∧ argmaxFirst l = none) ∨
        ∃ p, argmaxFirst l = some p ∧ p ∈ l ∧ ∀ q ∈ l, q.2 ≤ p.2
  | [] => Or.inl ⟨rfl, rfl⟩
  | p :: rest => by
    rcases argmaxFirst_spec rest with ⟨hnil, hnone⟩ | ⟨m, hm, hmem, hmax⟩
    · subst hnil
      refine Or.inr ⟨p, ?_, List.mem_cons_self p [], ?_⟩
      · rw [argmaxFirst, hnone]
      · intro q hq
        rcases List.mem_cons.mp hq with rfl | hq
        · exact le_refl _
        · cases hq
    · right
      by_cases hgt : m.2 > p.2
      · refine ⟨m, ?_, List.mem_cons_of_mem _ hmem, ?_⟩
        · rw [argmaxFirst, hm]
          simp [hgt]
        · intro q hq
          rcases List.mem_cons.mp hq with rfl | hq
          · exact le_of_lt hgt
          · exact hmax q hq
      · refine ⟨p, ?_, List.mem_cons_self _ _, ?_⟩
        · rw [argmaxFirst, hm]
          simp [hgt]
        · intro q hq
          rcases List.mem_cons.mp hq with rfl | hq
          · exact le_refl _
          · exact le_trans (hmax q hq) (not_lt.mp hgt)

theorem argmaxFirst_eq_none_iff {α : Type} (l : List (α × ℕ)) :
    argmaxFirst l = none ↔ l = [] := by
  rcases argmaxFirst_spec l with ⟨h1, h2⟩ | ⟨p, hp, hmem, -⟩
  · exact ⟨fun _ => h1, fun _ => h2⟩
  · constructor
    · intro h
      rw [hp] at h
      cases h
    · rintro rfl
      exact absurd hmem (List.not_mem_nil p)

theorem mem_timelinePoints_iff (parse : Option String → ℚ) (now : ℚ)
    (minutes : ℕ) (records : List Violation) (k : ℤ) (n : ℕ) :
    (k, n) ∈ timelinePoints parse now minutes records ↔
      k ∈ windowKeys parse now minutes records ∧
        n = (windowKeys parse now minutes records).countP (· == k) := by
  unfold timelinePoints
  rw [List.mem_map]
  constructor
  · rintro ⟨k0, hk0, heq⟩
    have hmem : k0 ∈ firstDedup (windowKeys parse now minutes records) :=
      ((List.perm_insertionSort _ _).mem_iff).mp hk0
    cases heq
    exact ⟨(mem_firstDedup _ _).mp hmem, rfl⟩
  · rintro ⟨hk, rfl⟩
    exact ⟨k, ((List.perm_insertionSort _ _).mem_iff).mpr
      ((mem_firstDedup _ _).mpr hk), rfl⟩

theorem timelinePoints_sorted (parse : Option String → ℚ) (now : ℚ)
    (minutes : ℕ) (records : List Violation) :
    (timelinePoints parse now minutes records).Pairwise (fun p q => p.1 < q.1) := by
  unfold timelinePoints
  rw [List.pairwise_map]
  have hs : (List.insertionSort (· ≤ ·)
      (firstDedup (windowKeys parse now minutes records))).Sorted (· ≤ ·) :=
    List.sorted_insertionSort _ _
  have hnd : (List.insertionSort (· ≤ ·)
      (firstDedup (windowKeys parse now minutes records))).Nodup :=
    ((List.perm_insertionSort _ _).nodup_iff).mpr (nodup_firstDedup _)
  exact hs.lt_of_le hnd

theorem timelinePoints_eq_nil_iff (parse : Option String → ℚ) (now : ℚ)
    (minutes : ℕ) (records : List Violation) :
    timelinePoints parse now minutes records = [] ↔
      records.filter (inWindow parse now minutes) = [] := by
  unfold timelinePoints
  rw [List.map_eq_nil_iff]
  constructor
  · intro h
    have hp := List.perm_insertionSort (α := ℤ) (· ≤ ·)
      (firstDedup (windowKeys parse now minutes records))
    rw [h] at hp
    have hfd := hp.symm.eq_nil
    have hkeys : windowKeys parse now minutes records = [] := by
      rcases hkl : windowKeys parse now minutes records with _ | ⟨k, ks⟩
      · rfl
      · exfalso
        have hk : k ∈ firstDedup (windowKeys parse now minutes records) :=
          (mem_firstDedup _ _).mpr (by rw [hkl]; exact List.mem_cons_self _ _)
        rw [hfd] at hk
        exact List.not_mem_nil _ hk
    unfold windowKeys at hkeys
    rwa [List.map_eq_nil_iff] at hkeys
  · intro h
    have hkeys : windowKeys parse now minutes records = [] := by
      unfold windowKeys
      rw [h]
      rfl
    rw [hkeys]
    rfl

/-! ## C8: timeline bucket correctness -/

/-- C8.  For every window within the route's `[10, 1440]` bound: the
timeline's points are pairwise strictly ascending in the minute key (hence
at most one bucket per minute); every emitted bucket `(k, n)` has a
positive count equal to the number of in-window records whose timestamp
truncates to minute `k` (no empty buckets); a minute `k` is emitted iff
some in-window record truncates to it; the peak is `none` exactly when no
record is in the window, and any returned peak is an emitted bucket of
maximum count. -/
theorem timeline_buckets_correct (parse : Option String → ℚ) (now : ℚ)
    (minutes : ℕ) (records : List Violation)
    (_h10 : 10 ≤ minutes) (_h1440 : minutes ≤ 1440) :
    (timeline parse now minutes records).window_minutes = minutes ∧
    (timeline parse now minutes records).points =
      timelinePoints parse now minutes records ∧
    (timelinePoints parse now minutes records).Pairwise (fun p q => p.1 < q.1) ∧
    (∀ k n, (k, n) ∈ timelinePoints parse now minutes records →
      0 < n ∧ n = (windowKeys parse now minutes records).countP (· == k)) ∧
    (∀ k, (∃ n, (k, n) ∈ timelinePoints parse now minutes records) ↔
      ∃ v ∈ records.filter (inWindow parse now minutes),
        minuteKey (parse v.timestamp) = k) ∧
    ((timeline parse now minutes records).peak_minute = none ↔
      records.filter (inWindow parse now minutes) = []) ∧
    (∀ p, (timeline parse now minutes records).peak_minute = some p →
      p ∈ timelinePoints parse now minutes records ∧
      ∀ q ∈ timelinePoints parse now minutes records, q.2 ≤ p.2) := by
  refine ⟨rfl, rfl, timelinePoints_sorted parse now minutes records, ?_, ?_, ?_, ?_⟩
  · intro k n h
    rw [mem_timelinePoints_iff] at h
    obtain ⟨hk, rfl⟩ := h
    exact ⟨List.countP_pos_iff.mpr ⟨k, hk, by simp⟩, rfl⟩
  · intro k
    constructor
    · rintro ⟨n, hn⟩
      rw [mem_timelinePoints_iff] at hn
      have hk := hn.1
      unfold windowKeys at hk
      rw [List.mem_map] at hk
      obtain ⟨v, hv, hkey⟩ := hk
      exact ⟨v, hv, hkey⟩
    · rintro ⟨v, hv, hkey⟩
      refine ⟨(windowKeys parse now minutes records).countP (· == k), ?_⟩
      rw [mem_timelinePoints_iff]
      refine ⟨?_, rfl⟩
      unfold windowKeys
      rw [List.mem_map]
      exact ⟨v, hv, hkey⟩
  · have hpeak : (timeline parse now minutes records).peak_minute =
        argmaxFirst (timelinePoints parse now minutes records) := rfl
    rw [hpeak, argmaxFirst_eq_none_iff, timelinePoints_eq_nil_iff]
  · intro p hp
    have hp2 : argmaxFirst (timelinePoints parse now minutes records) = some p := hp
    rcases argmaxFirst_spec (timelinePoints parse now minutes records) with
      ⟨-, hnone⟩ | ⟨m, hm, hmem, hmax⟩
    · rw [hnone] at hp2
      cases hp2
    · rw [hm] at hp2
      obtain rfl := Option.some.inj hp2
      exact ⟨hmem, hmax⟩

/-- Witness for C8: with a single record at instant `0` and a 120-minute
window ending at `0`, the bucket `(minute 0, count 1)` is emitted (derived
from the peak conjunct of the theorem); with no records, the peak is the
null sentinel. -/
theorem timeline_buckets_correct_witness :
    ((0 : ℤ), 1) ∈ timelinePoints wParse 0 120 [wRecA] ∧
    (timeline wParse 0 120 []).peak_minute = none := by
  have hpts : timelinePoints wParse 0 120 [wRecA] = [((0 : ℤ), 1)] := by
    have hw : windowKeys wParse 0 120 [wRecA] = [(0 : ℤ)] := by
      have hin : inWindow wParse 0 120 wRecA = true := by
        norm_num [inWindow, wParse, parseTimestamp, wRecA]
      have hmk : minuteKey (wParse wRecA.timestamp) = 0 := by
        norm_num [minuteKey, wParse, parseTimestamp, wRecA]
      simp [windowKeys, List.filter_cons, hin, hmk]
    rw [timelinePoints, hw]
    rfl
  have hpeak : (timeline wParse 0 120 [wRecA]).peak_minute = some ((0 : ℤ), 1) := by
    have : (timeline wParse 0 120 [wRecA]).peak_minute =
        argmaxFirst (timelinePoints wParse 0 120 [wRecA]) := rfl
    rw [this, hpts]
    rfl
  constructor
  · exact ((timeline_buckets_correct wParse 0 120 [wRecA] (by norm_num)
      (by norm_num)).2.2.2.2.2.2 ((0 : ℤ), 1) hpeak).1
  · exact ((timeline_buckets_correct wParse 0 120 [] (by norm_num)
      (by norm_num)).2.2.2.2.2.1).mpr rfl

end SchoolMonitoring
